import Mathlib

/-!
Verification of the quantTrader order execution lifecycle engine.

This file gives a shallow embedding of the core of
`src/quant_trader/execution_tracker.py` (the `ExecutionTracker` and
`EnhancedPositionManager` classes) and proves properties about it.

Modelling conventions:
- Python dicts keyed by strings become association lists with unique keys
  (`dictLookup`, `dictInsert`, `dictRemove`); `dictRemove` drops every pair
  with the key, which coincides with `dict.pop` because keys are unique.
- Exceptions raised by the external collaborators (broker, backend REST
  client) are inputs to each operation, as `Except String` values; an
  exception that an operation lets escape is returned as `PyResult.exn`.
- Calls made to the backend REST client are recorded as a list of events
  returned next to the new state; an event is recorded when the call is
  attempted.  Inside `poll_execution_status` the backend calls are wrapped
  in their own try/except (`_update_execution_in_backend`), so their
  failures never change tracker state and are not modelled separately.
- `time.time()` values become an `Int` parameter `now`; float prices are
  carried as `Rat` (they are only copied, never computed with).
-/

/-- Outcome of a Python call: a returned value or an escaped exception. -/
inductive PyResult (α : Type) where
  | ok : α → PyResult α
  | exn : String → PyResult α
deriving DecidableEq

/-- Lookup in an association list modelling a Python dict. -/
def dictLookup {α : Type} (l : List (String × α)) (k : String) : Option α :=
  match l with
  | [] => none
  | (k2, v) :: rest => if k2 = k then some v else dictLookup rest k

/-- Insertion modelling Python dict assignment: replace the binding if the
key is present, else append. -/
def dictInsert {α : Type} (l : List (String × α)) (k : String) (v : α) :
    List (String × α) :=
  match l with
  | [] => [(k, v)]
  | (k2, v2) :: rest =>
    if k2 = k then (k, v) :: rest else (k2, v2) :: dictInsert rest k v

/-- Removal modelling Python dict.pop: drops the binding for the key.  It
filters every pair with the key, which is the same thing because dict keys
are unique. -/
def dictRemove {α : Type} (l : List (String × α)) (k : String) :
    List (String × α) :=
  l.filter (fun p => p.1 ≠ k)

/-- Execution status enum, from the ExecutionStatus class. -/
inductive ExecutionStatus where
  | PENDING
  | SUBMITTED
  | FILLED
  | PARTIAL_FILLED
  | REJECTED
  | CANCELLED
  | FAILED
  | RETRY_PENDING
deriving DecidableEq

/-- Terminal statuses, from the list checked in poll_execution_status:
FILLED, REJECTED, CANCELLED, FAILED. -/
def isTerminal : ExecutionStatus → Bool
  | .FILLED => true
  | .REJECTED => true
  | .CANCELLED => true
  | .FAILED => true
  | _ => false

/-- Statuses at SUBMITTED or later, i.e. everything except PENDING and
RETRY_PENDING. -/
def reachedSubmitted : ExecutionStatus → Bool
  | .PENDING => false
  | .RETRY_PENDING => false
  | _ => true

/-- Execution record, from the ExecutionRecord dataclass. -/
structure ExecutionRecord where
  order_id : String
  symbol : String
  action : String
  size : Int
  target_price : Option Rat := none
  filled_price : Option Rat := none
  filled_size : Int := 0
  commission : Rat := 0
  status : ExecutionStatus := .PENDING
  broker_order_id : Option String := none
  created_at : Int
  updated_at : Int
  retry_count : Nat := 0
  last_error : Option String := none
deriving DecidableEq

/-- A trade signal as read by submit_order via signal.get(...): every field
may be absent. -/
structure Signal where
  order_id : Option String := none
  symbol : Option String := none
  action : Option String := none
  size : Option Int := none
  price : Option Rat := none

/-- A broker-reported execution status dict, as read by
poll_execution_status and the broker-status mapping. -/
structure BrokerStatus where
  status : Option String := none
  filled_size : Option Int := none
  avg_price : Option Rat := none
deriving DecidableEq

/-- Backend REST calls made by the tracker, in order of occurrence. -/
inductive ApiEvent where
  | updSubmitted (order_id broker_order_id : String) (submitted_at : Int)
  | updRetryPending (order_id : String) (retry_count : Nat)
      (last_error : Option String) (updated_at : Int)
  | createExecution (execution : ExecutionRecord)
  | updSignalPoll (order_id : String) (status : ExecutionStatus)
      (filled_qty : Int) (avg_price : Option Rat) (updated_at : Int)
      (executed_at : Option Int)
deriving DecidableEq

/-- The mutable state of an ExecutionTracker: the pending-execution table
keyed by order_id and the reverse index keyed by broker_order_id. -/
structure TrackerState where
  pending : List (String × ExecutionRecord)
  brokerToOrder : List (String × String)
deriving DecidableEq

/-- A freshly constructed tracker: both tables empty. -/
def initTracker : TrackerState := ⟨[], []⟩

/-- The except-branch of submit_order: mark the current record
RETRY_PENDING, bump its retry_count, record the error, store it in the
pending table, then report retry_pending to the backend.  That backend call
sits outside the try block, so if it raises the exception escapes (but the
record is already stored). -/
def submitFail (s : TrackerState) (order_id : String)
    (execution : ExecutionRecord) (e : String) (now : Int)
    (apiRetryResult : Except String Unit) :
    TrackerState × PyResult Bool × List ApiEvent :=
  let execution2 : ExecutionRecord :=
    { execution with
      status := .RETRY_PENDING
      retry_count := execution.retry_count + 1
      last_error := some e
      updated_at := now }
  let s2 : TrackerState :=
    { s with pending := dictInsert s.pending order_id execution2 }
  match apiRetryResult with
  | .ok _ =>
    (s2, .ok false,
      [.updRetryPending order_id execution2.retry_count execution2.last_error now])
  | .error e2 => (s2, .exn e2, [])

/-- Shallow embedding of ExecutionTracker.submit_order.  The broker's
place_order outcome and the outcomes of the two possible
update_signal_status calls are inputs. -/
def submitOrder (s : TrackerState) (signal : Signal) (now : Int)
    (brokerResult : Except String (Option String))
    (apiSubmitResult : Except String Unit)
    (apiRetryResult : Except String Unit) :
    TrackerState × PyResult Bool × List ApiEvent :=
  match signal.order_id with
  | none => (s, .ok false, [])
  | some order_id =>
    if order_id = "" then (s, .ok false, [])
    else
      let execution : ExecutionRecord :=
        { order_id := order_id
          symbol := signal.symbol.getD ""
          action := signal.action.getD ""
          size := signal.size.getD 0
          target_price := signal.price
          created_at := now
          updated_at := now }
      match brokerResult with
      | .error e => submitFail s order_id execution e now apiRetryResult
      | .ok none => (s, .ok false, [])
      | .ok (some bid) =>
        if bid = "" then (s, .ok false, [])
        else
          let execution2 : ExecutionRecord :=
            { execution with
              broker_order_id := some bid
              status := .SUBMITTED
              updated_at := now }
          let s2 : TrackerState :=
            { pending := dictInsert s.pending order_id execution2
              brokerToOrder := dictInsert s.brokerToOrder bid order_id }
          match apiSubmitResult with
          | .ok _ => (s2, .ok true, [.updSubmitted order_id bid now])
          | .error e => submitFail s2 order_id execution2 e now apiRetryResult

/-- ASCII lowercasing of a string, written over the character list so that
it reduces in the kernel (the statuses compared against are all ASCII, so
this matches Python str.lower on every relevant input). -/
def lowerStr (s : String) : String := String.mk (s.data.map Char.toLower)

/-- Shallow embedding of ExecutionTracker._map_broker_status: lowercase the
status string (missing key reads as the empty string) and bucket it. -/
def mapBrokerStatus (broker_status : BrokerStatus) : ExecutionStatus :=
  let status := lowerStr (broker_status.status.getD "")
  if status = "filled" ∨ status = "complete" then .FILLED
  else if status = "partial" ∨ status = "partially_filled" then .PARTIAL_FILLED
  else if status = "rejected" ∨ status = "failed" then .REJECTED
  else if status = "cancelled" ∨ status = "canceled" then .CANCELLED
  else .SUBMITTED

/-- Embedding of ExecutionTracker._update_execution_in_backend, reduced to
the two backend calls it attempts.  Its internal try/except means a failure
here never changes tracker state, so only the events matter. -/
def updateExecutionInBackend (execution : ExecutionRecord) : List ApiEvent :=
  [ .createExecution execution,
    .updSignalPoll execution.order_id execution.status execution.filled_size
      execution.filled_price execution.updated_at
      (if isTerminal execution.status then some execution.updated_at else none) ]

/-- Embedding of ExecutionTracker._complete_execution: pop the record from
the pending table and, when its broker_order_id is truthy (a non-empty
string), pop the reverse-index entry. -/
def completeExecution (s : TrackerState) (order_id : String) : TrackerState :=
  match dictLookup s.pending order_id with
  | none => s
  | some execution =>
    let s2 : TrackerState := { s with pending := dictRemove s.pending order_id }
    match execution.broker_order_id with
    | some b =>
      if b = "" then s2
      else { s2 with brokerToOrder := dictRemove s2.brokerToOrder b }
    | none => s2

/-- One iteration of the loop body of poll_execution_status for a single
broker-reported (broker_order_id, status) pair. -/
def pollStep (s : TrackerState) (now : Int) (broker_order_id : String)
    (broker_status : BrokerStatus) : TrackerState × List ApiEvent :=
  match dictLookup s.brokerToOrder broker_order_id with
  | none => (s, [])
  | some order_id =>
    match dictLookup s.pending order_id with
    | none => (s, [])
    | some execution =>
      let new_status := mapBrokerStatus broker_status
      let execution2 : ExecutionRecord :=
        { execution with
          status := new_status
          filled_size := broker_status.filled_size.getD 0
          filled_price := broker_status.avg_price
          updated_at := now }
      let s2 : TrackerState :=
        { s with pending := dictInsert s.pending order_id execution2 }
      let evs := updateExecutionInBackend execution2
      if isTerminal new_status then (completeExecution s2 order_id, evs)
      else (s2, evs)

/-- The loop of poll_execution_status over the broker-reported map. -/
def pollList (s : TrackerState) (now : Int) :
    List (String × BrokerStatus) → TrackerState × List ApiEvent
  | [] => (s, [])
  | (bid, bs) :: rest =>
    let r1 := pollStep s now bid bs
    let r2 := pollList r1.1 now rest
    (r2.1, r1.2 ++ r2.2)

/-- Shallow embedding of ExecutionTracker.poll_execution_status.  The
broker's get_execution_status outcome is an input; an exception there is
caught by the outer try/except and nothing happens. -/
def pollExecutionStatus (s : TrackerState)
    (brokerExecutions : Except String (List (String × BrokerStatus)))
    (now : Int) : TrackerState × List ApiEvent :=
  match brokerExecutions with
  | .error _ => (s, [])
  | .ok execs => pollList s now execs

/-- A broker-side position dict, as read by sync_positions via
pos_data.get(...). -/
structure PosData where
  qty : Option Int := none
  can_use_volume : Option Int := none
  frozen_volume : Option Int := none
  avg_price : Option Rat := none
  market_value : Option Rat := none
  on_road_volume : Option Int := none
deriving DecidableEq

/-- Position document pushed to the backend by sync_positions. -/
structure PositionDoc where
  symbol : String
  qty : Int
  can_use_volume : Int
  frozen_volume : Int
  avg_price : Rat
  market_value : Rat
  on_road_volume : Int
  timestamp : Int
  updated_at : Int
  account_id : Option String
  broker : String
deriving DecidableEq

/-- Calls made by the reconciler during one sync_positions call, in order.
Modelled from the spec: TraderApiClient.cleanup_stale_positions is absent
from src/src/quant_trader/api_client.py (only its tests and this caller
exist); per the spec it is a DELETE /trader/positions/cleanup backend call
taking the current canonical symbol list and an account id, which may raise
on HTTP failure.  It is recorded here as the cleanupCall event, with its
outcome an input of syncPositions. -/
inductive SyncEvent where
  | queryPositions
  | syncPositionsCall (docs : List PositionDoc)
  | cleanupCall (current_symbols : List String) (account_id : Option String)
deriving DecidableEq

/-- True exactly on cleanup events. -/
def isCleanup : SyncEvent → Bool
  | .cleanupCall _ _ => true
  | _ => false

/-- The mutable state of an EnhancedPositionManager that sync_positions
touches, plus its configuration. -/
structure ReconcilerState where
  sync_interval : Int
  last_sync : Int
  account_id : Option String
  broker_name : String
deriving DecidableEq

/-- Canonical symbol: the substring before the first dot when the symbol
contains a dot, the symbol itself otherwise (symbol.split('.')[0] if '.'
in symbol else symbol).  Written over the character list so that it
reduces in the kernel. -/
def baseSymbol (symbol : String) : String :=
  if symbol.data.contains '.' then
    String.mk (symbol.data.takeWhile (fun c => c ≠ '.'))
  else symbol

/-- Adding one element to the current_symbols set, keeping first-insertion
order (Python set semantics matter only up to membership). -/
def addSymbol (l : List String) (x : String) : List String :=
  if x ∈ l then l else l ++ [x]

/-- The current_symbols set accumulated over the broker positions. -/
def collectSymbols (positions : List (String × PosData)) : List String :=
  positions.foldl (fun acc p => addSymbol acc (baseSymbol p.1)) []

/-- One position document built in the sync_positions loop. -/
def mkPositionDoc (s : ReconcilerState) (now : Int) (symbol : String)
    (pos_data : PosData) : PositionDoc :=
  { symbol := baseSymbol symbol
    qty := pos_data.qty.getD 0
    can_use_volume := pos_data.can_use_volume.getD 0
    frozen_volume := pos_data.frozen_volume.getD 0
    avg_price := pos_data.avg_price.getD 0
    market_value := pos_data.market_value.getD 0
    on_road_volume := pos_data.on_road_volume.getD 0
    timestamp := now
    updated_at := now
    account_id := s.account_id
    broker := s.broker_name }

/-- Shallow embedding of EnhancedPositionManager.sync_positions.  The
broker's query_positions outcome and the outcomes of the two backend calls
are inputs; every exception inside the try block is caught and the call
returns false. -/
def syncPositions (s : ReconcilerState) (now : Int)
    (brokerPositions : Except String (List (String × PosData)))
    (syncResult : Except String Unit)
    (cleanupResult : Except String Unit) :
    ReconcilerState × Bool × List SyncEvent :=
  if now - s.last_sync < s.sync_interval then (s, false, [])
  else
    let s2 : ReconcilerState := { s with last_sync := now }
    match brokerPositions with
    | .error _ => (s2, false, [.queryPositions])
    | .ok broker_positions =>
      if broker_positions.isEmpty then
        match cleanupResult with
        | .ok _ =>
          (s2, true, [.queryPositions, .cleanupCall [] s.account_id])
        | .error _ =>
          (s2, false, [.queryPositions, .cleanupCall [] s.account_id])
      else
        let current_symbols := collectSymbols broker_positions
        let position_updates :=
          broker_positions.map (fun p => mkPositionDoc s now p.1 p.2)
        let syncEvents : List SyncEvent :=
          if position_updates.isEmpty then []
          else [.syncPositionsCall position_updates]
        let syncOutcome : Except String Unit :=
          if position_updates.isEmpty then .ok () else syncResult
        match syncOutcome with
        | .error _ => (s2, false, .queryPositions :: syncEvents)
        | .ok _ =>
          match cleanupResult with
          | .ok _ =>
            (s2, true,
              .queryPositions :: syncEvents ++
                [.cleanupCall current_symbols s.account_id])
          | .error _ =>
            (s2, false,
              .queryPositions :: syncEvents ++
                [.cleanupCall current_symbols s.account_id])

/-! ### Association-list lemmas -/

/-- Lookup after insertion. -/
theorem dictLookup_insert {α : Type} (l : List (String × α)) (k k2 : String)
    (v : α) :
    dictLookup (dictInsert l k v) k2 =
      if k = k2 then some v else dictLookup l k2 := by
  induction l with
  | nil => simp [dictInsert, dictLookup]
  | cons p rest ih =>
    obtain ⟨a, b⟩ := p
    by_cases h1 : a = k
    · subst h1
      by_cases h2 : a = k2 <;> simp [dictInsert, dictLookup, h2]
    · by_cases h2 : a = k2
      · subst h2
        have hk : k ≠ a := fun h => h1 h.symm
        simp [dictInsert, dictLookup, h1, hk]
      · simp [dictInsert, dictLookup, h1, h2, ih]

/-- Lookup after removal. -/
theorem dictLookup_remove {α : Type} (l : List (String × α)) (k k2 : String) :
    dictLookup (dictRemove l k) k2 =
      if k2 = k then none else dictLookup l k2 := by
  induction l with
  | nil =>
    by_cases h : k2 = k <;> simp [dictRemove, dictLookup, h]
  | cons p rest ih =>
    obtain ⟨a, b⟩ := p
    by_cases h1 : a = k
    · subst h1
      by_cases h2 : a = k2
      · subst h2
        simp [dictRemove, dictLookup, List.filter_cons] at ih ⊢
        simpa using ih
      · have hk : k2 ≠ a := fun h => h2 h.symm
        simp [dictRemove, dictLookup, List.filter_cons, h2, hk] at ih ⊢
        simpa [hk] using ih
    · by_cases h2 : a = k2
      · subst h2
        have hk : ¬(a = k) := h1
        simp [dictRemove, dictLookup, List.filter_cons, hk, h1]
      · simp [dictRemove, dictLookup, List.filter_cons, h1, h2] at ih ⊢
        simpa using ih

/-! ### Shared concrete inputs for counterexamples and witnesses -/

/-- A well-formed signal used in concrete scenarios. -/
def wSignal : Signal :=
  { order_id := some "X", symbol := some "000001", action := some "buy",
    size := some 100, price := some 10 }

/-! ### Claim C6: fidelity of the broker-status mapping -/

/-- Claim C6 counterexample: the mapping lowercases the broker status
first, so the string "FILLED" — which is not in any of the four listed
lowercase sets — maps to FILLED, not to SUBMITTED as the claim requires
for "any other string". -/
theorem c6_counterexample :
    mapBrokerStatus { status := some "FILLED" } = .FILLED ∧
    "FILLED" ∉ ["filled", "complete", "partial", "partially_filled",
      "rejected", "failed", "cancelled", "canceled"] ∧
    ExecutionStatus.FILLED ≠ ExecutionStatus.SUBMITTED := by
  decide

/-- Claim C6 (amended): the buckets are applied to the lowercased broker
status string (a missing status field reads as the empty string): lowercase
form in {filled, complete} maps to FILLED; {partial, partially_filled} to
PARTIAL_FILLED; {rejected, failed} to REJECTED; {cancelled, canceled} to
CANCELLED; any string whose lowercase form is in none of these sets maps to
SUBMITTED. -/
theorem c6_status_fidelity (bs : BrokerStatus) :
    ((lowerStr (bs.status.getD "") = "filled" ∨
        lowerStr (bs.status.getD "") = "complete") →
      mapBrokerStatus bs = .FILLED) ∧
    ((lowerStr (bs.status.getD "") = "partial" ∨
        lowerStr (bs.status.getD "") = "partially_filled") →
      mapBrokerStatus bs = .PARTIAL_FILLED) ∧
    ((lowerStr (bs.status.getD "") = "rejected" ∨
        lowerStr (bs.status.getD "") = "failed") →
      mapBrokerStatus bs = .REJECTED) ∧
    ((lowerStr (bs.status.getD "") = "cancelled" ∨
        lowerStr (bs.status.getD "") = "canceled") →
      mapBrokerStatus bs = .CANCELLED) ∧
    (lowerStr (bs.status.getD "") ≠ "filled" →
      lowerStr (bs.status.getD "") ≠ "complete" →
      lowerStr (bs.status.getD "") ≠ "partial" →
      lowerStr (bs.status.getD "") ≠ "partially_filled" →
      lowerStr (bs.status.getD "") ≠ "rejected" →
      lowerStr (bs.status.getD "") ≠ "failed" →
      lowerStr (bs.status.getD "") ≠ "cancelled" →
      lowerStr (bs.status.getD "") ≠ "canceled" →
      mapBrokerStatus bs = .SUBMITTED) := by
  refine ⟨?_, ?_, ?_, ?_, ?_⟩
  · rintro (h | h) <;> simp [mapBrokerStatus, h]
  · rintro (h | h) <;> simp [mapBrokerStatus, h]
  · rintro (h | h) <;> simp [mapBrokerStatus, h]
  · rintro (h | h) <;> simp [mapBrokerStatus, h]
  · intro h1 h2 h3 h4 h5 h6 h7 h8
    simp [mapBrokerStatus, h1, h2, h3, h4, h5, h6, h7, h8]

/-- Witness for c6_status_fidelity at the broker status "working". -/
theorem c6_status_fidelity_witness :
    mapBrokerStatus { status := some "working" } = .SUBMITTED :=
  (c6_status_fidelity { status := some "working" }).2.2.2.2
    (by decide) (by decide) (by decide) (by decide)
    (by decide) (by decide) (by decide) (by decide)

/-! ### Claim C3: empty or invalid broker order id -/

/-- Claim C3 counterexample: when the broker returns the empty broker order
id without raising, submit_order returns false immediately: the tracker
state is unchanged (in particular no record for the order_id enters the
pending table, so nothing is marked RETRY_PENDING and no retry_count is
incremented) and no backend report is made — contrary to the claimed
transient-failure treatment. -/
theorem c3_counterexample :
    submitOrder initTracker wSignal 0 (.ok (some "")) (.ok ()) (.ok ()) =
      (initTracker, .ok false, []) ∧
    dictLookup initTracker.pending "X" = none := by
  decide

/-- Claim C3 (amended): for every signal with a non-empty order_id for
which the broker's place_order returns an empty or missing broker order id
without raising, submit_order returns false immediately, leaves the tracker
state unchanged (no record is created or updated, no retry_count change,
no status change), and makes no backend report. -/
theorem c3_empty_broker_id (s : TrackerState) (signal : Signal)
    (oid : String) (now : Int) (bidOpt : Option String)
    (apiSubmitResult apiRetryResult : Except String Unit)
    (hoid : signal.order_id = some oid) (hne : oid ≠ "")
    (hbid : bidOpt = none ∨ bidOpt = some "") :
    submitOrder s signal now (.ok bidOpt) apiSubmitResult apiRetryResult =
      (s, .ok false, []) := by
  rcases hbid with h | h <;> subst h <;> simp [submitOrder, hoid, hne]

/-- Witness for c3_empty_broker_id: broker returns no order id for a
well-formed signal. -/
theorem c3_empty_broker_id_witness :
    wSignal.order_id = some "X" ∧ "X" ≠ "" ∧
    submitOrder initTracker wSignal 0 (.ok none) (.ok ()) (.ok ()) =
      (initTracker, .ok false, []) :=
  ⟨rfl, by decide,
    c3_empty_broker_id initTracker wSignal "X" 0 none (.ok ()) (.ok ())
      rfl (by decide) (Or.inl rfl)⟩

/-! ### Claim C1: retry bookkeeping across failed submissions -/

/-- First failed submission for order_id X. -/
def c1_state1 : TrackerState :=
  (submitOrder initTracker wSignal 0 (.error "broker down") (.ok ()) (.ok ())).1

/-- Second consecutive failed submission for the same order_id X. -/
def c1_state2 : TrackerState :=
  (submitOrder c1_state1 wSignal 1 (.error "broker down") (.ok ()) (.ok ())).1

/-- Claim C1 counterexample: after two consecutive failed submit_order
calls for the same order_id, the pending record's retry_count is 1, not 2:
each call builds a fresh record with retry_count 0, increments it once and
overwrites the previous record, so the count never accumulates. -/
theorem c1_counterexample :
    (dictLookup c1_state2.pending "X").map ExecutionRecord.retry_count =
      some 1 ∧
    (dictLookup c1_state2.pending "X").map ExecutionRecord.retry_count ≠
      some 2 := by
  decide

/-- Claim C1 (amended): for every signal with non-empty order_id whose
broker place_order raises, the failed submit_order call leaves a record for
that order_id in the pending table (not removed) with status RETRY_PENDING,
last_error the raised message, and retry_count exactly 1 — the increment is
applied to a freshly created record whose retry_count starts at 0, so the
count does not accumulate across consecutive failed calls and after n
consecutive failures it equals 1, not n; when the failure-path backend
update succeeds the call returns false. -/
theorem c1_retry_resets_to_one (s : TrackerState) (signal : Signal)
    (oid : String) (now : Int) (e : String)
    (apiSubmitResult apiRetryResult : Except String Unit)
    (hoid : signal.order_id = some oid) (hne : oid ≠ "") :
    (dictLookup
        (submitOrder s signal now (.error e) apiSubmitResult apiRetryResult).1.pending
        oid).map (fun rec => (rec.status, rec.retry_count, rec.last_error)) =
      some (.RETRY_PENDING, 1, some e) ∧
    (apiRetryResult = .ok () →
      (submitOrder s signal now (.error e) apiSubmitResult apiRetryResult).2.1 =
        .ok false) := by
  constructor
  · cases apiRetryResult <;>
      simp [submitOrder, hoid, hne, submitFail, dictLookup_insert]
  · intro h
    subst h
    simp [submitOrder, hoid, hne, submitFail]

/-- Witness for c1_retry_resets_to_one at a concrete failing submission. -/
theorem c1_retry_resets_to_one_witness :
    wSignal.order_id = some "X" ∧ "X" ≠ "" ∧
    ((dictLookup c1_state1.pending "X").map
        (fun rec => (rec.status, rec.retry_count, rec.last_error)) =
      some (.RETRY_PENDING, 1, some "broker down") ∧
    ((Except.ok () : Except String Unit) = .ok () →
      (submitOrder initTracker wSignal 0 (.error "broker down") (.ok ()) (.ok ())).2.1 =
        .ok false)) :=
  ⟨rfl, by decide,
    c1_retry_resets_to_one initTracker wSignal "X" 0 "broker down"
      (.ok ()) (.ok ()) rfl (by decide)⟩

/-! ### Claim C8: exception behavior of submit_order on placement failure -/

/-- Claim C8 counterexample: when the broker's place_order raises and the
backend status update in the failure path also raises, submit_order lets
the backend exception escape to the caller instead of returning false — the
except branch of the code is outside the try block. -/
theorem c8_counterexample :
    (submitOrder initTracker wSignal 0 (.error "network down") (.ok ())
        (.error "backend down")).2.1 = .exn "backend down" := by
  decide

/-- Claim C8 (amended): for every signal with non-empty order_id whose
broker place_order raises, submit_order catches the broker exception and
returns false — provided the backend status-update call in the failure path
does not itself raise; when that backend call raises, its exception
propagates to the caller (the record having already been stored as
RETRY_PENDING). -/
theorem c8_no_raise_when_backend_ok (s : TrackerState) (signal : Signal)
    (oid : String) (now : Int) (e : String)
    (apiSubmitResult : Except String Unit)
    (hoid : signal.order_id = some oid) (hne : oid ≠ "") :
    ((submitOrder s signal now (.error e) apiSubmitResult (.ok ())).2.1 =
      .ok false) ∧
    ∀ e2, (submitOrder s signal now (.error e) apiSubmitResult
        (.error e2)).2.1 = .exn e2 := by
  constructor
  · simp [submitOrder, hoid, hne, submitFail]
  · intro e2
    simp [submitOrder, hoid, hne, submitFail]

/-- Witness for c8_no_raise_when_backend_ok at a concrete failing
placement. -/
theorem c8_no_raise_when_backend_ok_witness :
    wSignal.order_id = some "X" ∧ "X" ≠ "" ∧
    (((submitOrder initTracker wSignal 0 (.error "network down") (.ok ())
        (.ok ())).2.1 = .ok false) ∧
    ∀ e2, (submitOrder initTracker wSignal 0 (.error "network down") (.ok ())
        (.error e2)).2.1 = .exn e2) :=
  ⟨rfl, by decide,
    c8_no_raise_when_backend_ok initTracker wSignal "X" 0 "network down"
      (.ok ()) rfl (by decide)⟩


/-! ### Claim C7: idempotent terminal removal -/

/-- The record as rewritten by the poll loop body, used to state the poll
theorems compactly. -/
def pollRecUpdate (rec : ExecutionRecord) (bs : BrokerStatus) (now : Int) :
    ExecutionRecord :=
  { rec with
    status := mapBrokerStatus bs
    filled_size := bs.filled_size.getD 0
    filled_price := bs.avg_price
    updated_at := now }

/-- Reducing a poll over a singleton broker report to one pollStep. -/
theorem pollES_single (s : TrackerState) (bid : String) (bs : BrokerStatus)
    (t : Int) :
    pollExecutionStatus s (.ok [(bid, bs)]) t = pollStep s t bid bs := by
  simp [pollExecutionStatus, pollList]

/-- Unfolding of a matched pollStep in terms of pollRecUpdate. -/
theorem pollStep_matched (s : TrackerState) (t : Int) (bid oid : String)
    (bs : BrokerStatus) (rec : ExecutionRecord)
    (hmap : dictLookup s.brokerToOrder bid = some oid)
    (hpend : dictLookup s.pending oid = some rec) :
    pollStep s t bid bs =
      (if isTerminal (mapBrokerStatus bs) then
        completeExecution
          { s with pending := dictInsert s.pending oid (pollRecUpdate rec bs t) }
          oid
      else
        { s with pending := dictInsert s.pending oid (pollRecUpdate rec bs t) },
      updateExecutionInBackend (pollRecUpdate rec bs t)) := by
  by_cases hterm : isTerminal (mapBrokerStatus bs) = true <;>
    simp [pollStep, hmap, hpend, hterm, pollRecUpdate]

/-- Claim C7: when a pollExecutionStatus call maps a tracked order's broker
status to a terminal status, that call removes the record from the pending
table and (for a truthy broker_order_id, which is the only kind the code
ever registers) its reverse-index entry, and a second poll reporting the
same broker_order_id leaves the state unchanged and sends no backend
report. -/
theorem c7_idempotent_terminal_removal (s : TrackerState) (bid : String)
    (bs : BrokerStatus) (t1 t2 : Int) (oid : String) (rec : ExecutionRecord)
    (hterm : isTerminal (mapBrokerStatus bs) = true)
    (hmap : dictLookup s.brokerToOrder bid = some oid)
    (hpend : dictLookup s.pending oid = some rec) :
    dictLookup (pollExecutionStatus s (.ok [(bid, bs)]) t1).1.pending oid =
      none ∧
    (∀ b2, rec.broker_order_id = some b2 → b2 ≠ "" →
      dictLookup (pollExecutionStatus s (.ok [(bid, bs)]) t1).1.brokerToOrder
        b2 = none) ∧
    pollExecutionStatus (pollExecutionStatus s (.ok [(bid, bs)]) t1).1
        (.ok [(bid, bs)]) t2 =
      ((pollExecutionStatus s (.ok [(bid, bs)]) t1).1, []) := by
  rw [pollES_single, pollES_single, pollStep_matched s t1 bid oid bs rec hmap hpend]
  rw [if_pos hterm]
  have hlook : dictLookup
      (dictInsert s.pending oid (pollRecUpdate rec bs t1)) oid =
      some (pollRecUpdate rec bs t1) := by
    simp [dictLookup_insert]
  have hbo2 : (pollRecUpdate rec bs t1).broker_order_id =
      rec.broker_order_id := rfl
  rcases hbo : rec.broker_order_id with _ | b
  · have hcomp : completeExecution
        { s with pending := dictInsert s.pending oid (pollRecUpdate rec bs t1) }
        oid =
        { s with pending :=
                    dictRemove
                      (dictInsert s.pending oid (pollRecUpdate rec bs t1))
                      oid } := by
      simp [completeExecution, hlook, hbo2, hbo]
    rw [hcomp]
    refine ⟨by simp [dictLookup_remove], by simp, ?_⟩
    simp [pollStep, hmap, dictLookup_remove]
  · by_cases hbe : b = ""
    · subst hbe
      have hcomp : completeExecution
          { s with pending := dictInsert s.pending oid (pollRecUpdate rec bs t1) }
          oid =
          { s with pending :=
                      dictRemove
                        (dictInsert s.pending oid (pollRecUpdate rec bs t1))
                        oid } := by
        simp [completeExecution, hlook, hbo2, hbo]
      rw [hcomp]
      refine ⟨by simp [dictLookup_remove], ?_, ?_⟩
      · intro b2 hb2 hne
        injection hb2 with h2
        subst h2
        exact absurd rfl hne
      · simp [pollStep, hmap, dictLookup_remove]
    · have hcomp : completeExecution
          { s with pending := dictInsert s.pending oid (pollRecUpdate rec bs t1) }
          oid =
          { pending :=
                dictRemove
                  (dictInsert s.pending oid (pollRecUpdate rec bs t1)) oid,
            brokerToOrder := dictRemove s.brokerToOrder b } := by
        simp [completeExecution, hlook, hbo2, hbo, hbe]
      rw [hcomp]
      refine ⟨by simp [dictLookup_remove], ?_, ?_⟩
      · intro b2 hb2 hne
        injection hb2 with h2
        subst h2
        simp [dictLookup_remove]
      · by_cases hbb : bid = b
        · subst hbb
          simp [pollStep, dictLookup_remove]
        · simp [pollStep, dictLookup_remove, hbb, hmap]

/-- Record used in the C7 witness scenario. -/
def c7_rec : ExecutionRecord :=
  { order_id := "X", symbol := "000001", action := "buy", size := 100,
    status := .SUBMITTED, broker_order_id := some "B1",
    created_at := 0, updated_at := 0 }

/-- Tracker state used in the C7 witness scenario. -/
def c7_state : TrackerState := ⟨[("X", c7_rec)], [("B1", "X")]⟩

/-- Broker status used in the C7 witness scenario. -/
def c7_bs : BrokerStatus :=
  { status := some "filled", filled_size := some 100, avg_price := some 10 }

/-- Witness for c7_idempotent_terminal_removal at a concrete filled order. -/
theorem c7_idempotent_terminal_removal_witness :
    isTerminal (mapBrokerStatus c7_bs) = true ∧
    dictLookup c7_state.brokerToOrder "B1" = some "X" ∧
    dictLookup c7_state.pending "X" = some c7_rec ∧
    (dictLookup (pollExecutionStatus c7_state (.ok [("B1", c7_bs)]) 1).1.pending
        "X" = none ∧
    (∀ b2, c7_rec.broker_order_id = some b2 → b2 ≠ "" →
      dictLookup (pollExecutionStatus c7_state
          (.ok [("B1", c7_bs)]) 1).1.brokerToOrder b2 = none) ∧
    pollExecutionStatus (pollExecutionStatus c7_state (.ok [("B1", c7_bs)]) 1).1
        (.ok [("B1", c7_bs)]) 2 =
      ((pollExecutionStatus c7_state (.ok [("B1", c7_bs)]) 1).1, [])) :=
  ⟨by decide, rfl, rfl,
    c7_idempotent_terminal_removal c7_state "B1" c7_bs 1 2 "X" c7_rec
      (by decide) rfl rfl⟩

/-! ### Claim C10: poll overwrites fill fields with defaults -/

/-- Claim C10: for a tracked order matched during a poll, the record's
filled_size is unconditionally replaced by the broker status's filled_size
field (default 0 when absent) and filled_price by the avg_price field
(default absent), as shown both in the backend execution report and — when
the new status is not terminal — in the record left in the pending table;
a broker status omitting these fields therefore resets a previous partial
fill. -/
theorem c10_poll_overwrites_fill_fields (s : TrackerState) (now : Int)
    (bid : String) (bs : BrokerStatus) (oid : String) (rec : ExecutionRecord)
    (hmap : dictLookup s.brokerToOrder bid = some oid)
    (hpend : dictLookup s.pending oid = some rec) :
    (pollExecutionStatus s (.ok [(bid, bs)]) now).2.head? =
      some (.createExecution (pollRecUpdate rec bs now)) ∧
    (isTerminal (mapBrokerStatus bs) = false →
      dictLookup (pollExecutionStatus s (.ok [(bid, bs)]) now).1.pending oid =
        some (pollRecUpdate rec bs now)) := by
  rw [pollES_single, pollStep_matched s now bid oid bs rec hmap hpend]
  constructor
  · simp [updateExecutionInBackend]
  · intro hterm
    rw [if_neg (by simp [hterm])]
    simp [dictLookup_insert]

/-- Record used in the C10 witness scenario: a partial fill already
recorded. -/
def c10_rec : ExecutionRecord :=
  { order_id := "X", symbol := "000001", action := "buy", size := 200,
    filled_size := 100, filled_price := some 10,
    status := .PARTIAL_FILLED, broker_order_id := some "B1",
    created_at := 0, updated_at := 0 }

/-- Tracker state used in the C10 witness scenario. -/
def c10_state : TrackerState := ⟨[("X", c10_rec)], [("B1", "X")]⟩

/-- Broker status used in the C10 witness scenario: it omits filled_size
and avg_price. -/
def c10_bs : BrokerStatus := { status := some "working" }

/-- Witness for c10_poll_overwrites_fill_fields: the broker status omits
the fill fields and the previously recorded partial fill is reset to
filled_size 0 and no filled_price. -/
theorem c10_poll_overwrites_fill_fields_witness :
    dictLookup c10_state.brokerToOrder "B1" = some "X" ∧
    dictLookup c10_state.pending "X" = some c10_rec ∧
    (pollRecUpdate c10_rec c10_bs 5).filled_size = 0 ∧
    (pollRecUpdate c10_rec c10_bs 5).filled_price = none ∧
    ((pollExecutionStatus c10_state (.ok [("B1", c10_bs)]) 5).2.head? =
      some (.createExecution (pollRecUpdate c10_rec c10_bs 5)) ∧
    (isTerminal (mapBrokerStatus c10_bs) = false →
      dictLookup (pollExecutionStatus c10_state
          (.ok [("B1", c10_bs)]) 5).1.pending "X" =
        some (pollRecUpdate c10_rec c10_bs 5))) :=
  ⟨rfl, rfl, by decide, by decide,
    c10_poll_overwrites_fill_fields c10_state 5 "B1" c10_bs "X" c10_rec
      rfl rfl⟩

/-! ### Claim C2: always-cleanup invariant of sync_positions -/

/-- Membership in the set after adding one symbol. -/
theorem mem_addSymbol (l : List String) (x y : String) :
    y ∈ addSymbol l x ↔ y ∈ l ∨ y = x := by
  by_cases h : x ∈ l
  · simp only [addSymbol, if_pos h]
    constructor
    · exact Or.inl
    · rintro (hy | rfl)
      · exact hy
      · exact h
  · simp [addSymbol, if_neg h]

/-- Membership in the accumulated current_symbols set. -/
theorem mem_foldl_addSymbol (l : List (String × PosData)) :
    ∀ (acc : List String) (y : String),
      y ∈ l.foldl (fun a p => addSymbol a (baseSymbol p.1)) acc ↔
        y ∈ acc ∨ y ∈ l.map (fun p => baseSymbol p.1) := by
  induction l with
  | nil =>
    intro acc y
    simp
  | cons p rest ih =>
    intro acc y
    simp only [List.foldl_cons, List.map_cons, List.mem_cons]
    rw [ih, mem_addSymbol]
    tauto

/-- The current_symbols set holds exactly the canonical forms of the broker
symbols. -/
theorem mem_collectSymbols (l : List (String × PosData)) (y : String) :
    y ∈ collectSymbols l ↔ y ∈ l.map (fun p => baseSymbol p.1) := by
  unfold collectSymbols
  rw [mem_foldl_addSymbol]
  simp

/-- Claim C2: every successful sync_positions call makes exactly one
stale-position-cleanup call, and its current_symbols argument is exactly
the set of canonical symbols (broker symbols truncated at the first dot)
just synced — the empty list when the broker reported zero positions. -/
theorem c2_always_cleanup (s : ReconcilerState) (now : Int)
    (poss : List (String × PosData))
    (syncResult cleanupResult : Except String Unit)
    (hok : (syncPositions s now (.ok poss) syncResult cleanupResult).2.1 =
      true) :
    (syncPositions s now (.ok poss) syncResult cleanupResult).2.2.filter
        isCleanup =
      [SyncEvent.cleanupCall (collectSymbols poss) s.account_id] ∧
    ∀ x, x ∈ collectSymbols poss ↔ x ∈ poss.map (fun p => baseSymbol p.1) := by
  refine ⟨?_, fun x => mem_collectSymbols poss x⟩
  unfold syncPositions at hok ⊢
  by_cases hrate : now - s.last_sync < s.sync_interval
  · rw [if_pos hrate] at hok
    simp at hok
  · rw [if_neg hrate] at hok ⊢
    by_cases hemp : poss.isEmpty = true
    · have hnil : poss = [] := by
        cases poss with
        | nil => rfl
        | cons a l => simp [List.isEmpty] at hemp
      subst hnil
      cases cleanupResult with
      | ok u => simp [isCleanup, collectSymbols]
      | error e => simp at hok
    · simp only [if_neg hemp] at hok ⊢
      have hemp2 : ((poss.map fun p => mkPositionDoc s now p.1 p.2).isEmpty) =
          false := by
        cases poss with
        | nil => simp at hemp
        | cons a l => simp [List.isEmpty]
      simp only [hemp2] at hok ⊢
      cases syncResult with
      | error e => simp at hok
      | ok u =>
        cases cleanupResult with
        | error e => simp at hok
        | ok u2 => simp [isCleanup]

/-- Reconciler state used in concrete scenarios. -/
def c2_rs : ReconcilerState :=
  { sync_interval := 60, last_sync := 0, account_id := some "ACC",
    broker_name := "sim" }

/-- Broker positions used in the C2 witness scenario. -/
def c2_poss : List (String × PosData) := [("002050.SZ", {}), ("600036.SH", {})]

/-- Witness for c2_always_cleanup at a successful sync of two symbols. -/
theorem c2_always_cleanup_witness :
    (syncPositions c2_rs 100 (.ok c2_poss) (.ok ()) (.ok ())).2.1 = true ∧
    ((syncPositions c2_rs 100 (.ok c2_poss) (.ok ()) (.ok ())).2.2.filter
        isCleanup =
      [SyncEvent.cleanupCall (collectSymbols c2_poss) c2_rs.account_id] ∧
    ∀ x, x ∈ collectSymbols c2_poss ↔
      x ∈ c2_poss.map (fun p => baseSymbol p.1)) :=
  ⟨by decide, c2_always_cleanup c2_rs 100 c2_poss (.ok ()) (.ok ()) (by decide)⟩

/-! ### Claim C9: failed syncs are rate-limited like successes -/

/-- A sync_positions call inside the rate-limit window skips: it returns
false, changes nothing and performs no broker query or backend call. -/
theorem syncPositions_skip (s : ReconcilerState) (now : Int)
    (brokerPositions : Except String (List (String × PosData)))
    (syncResult cleanupResult : Except String Unit)
    (h : now - s.last_sync < s.sync_interval) :
    syncPositions s now brokerPositions syncResult cleanupResult =
      (s, false, []) := by
  unfold syncPositions
  rw [if_pos h]

/-- Claim C9: every sync_positions call that passes the rate-limit check
advances last_sync to the current time — whatever happens afterwards,
including a raising broker query or backend call — so any subsequent call
within sync_interval of it skips immediately with no broker query and no
backend call. -/
theorem c9_failed_sync_rate_limited (s : ReconcilerState) (now : Int)
    (brokerPositions : Except String (List (String × PosData)))
    (syncResult cleanupResult : Except String Unit)
    (hpass : ¬(now - s.last_sync < s.sync_interval)) :
    (syncPositions s now brokerPositions syncResult cleanupResult).1.last_sync =
      now ∧
    (syncPositions s now brokerPositions syncResult
        cleanupResult).1.sync_interval = s.sync_interval ∧
    ∀ (now2 : Int) (bp2 : Except String (List (String × PosData)))
        (sr2 cr2 : Except String Unit),
      now2 - now < s.sync_interval →
      syncPositions (syncPositions s now brokerPositions syncResult
          cleanupResult).1 now2 bp2 sr2 cr2 =
        ((syncPositions s now brokerPositions syncResult cleanupResult).1,
          false, []) := by
  have h1 : (syncPositions s now brokerPositions syncResult cleanupResult).1 =
      { s with last_sync := now } := by
    unfold syncPositions
    rw [if_neg hpass]
    rcases brokerPositions with e | poss
    · rfl
    · by_cases hemp : poss.isEmpty = true
      · simp only [if_pos hemp]
        cases cleanupResult <;> rfl
      · simp only [if_neg hemp]
        have hemp2 : ((poss.map fun p => mkPositionDoc s now p.1 p.2).isEmpty) =
            false := by
          cases poss with
          | nil => simp at hemp
          | cons a l => simp [List.isEmpty]
        simp only [hemp2]
        cases syncResult with
        | error e => rfl
        | ok u => cases cleanupResult <;> rfl
  refine ⟨by rw [h1], by rw [h1], ?_⟩
  intro now2 bp2 sr2 cr2 hlt
  rw [h1]
  exact syncPositions_skip _ _ _ _ _ (by simpa using hlt)

/-- Witness for c9_failed_sync_rate_limited: a sync whose broker query
raises, followed by an attempt 30 seconds later. -/
theorem c9_failed_sync_rate_limited_witness :
    ¬((100 : Int) - c2_rs.last_sync < c2_rs.sync_interval) ∧
    ((syncPositions c2_rs 100 (.error "broker down") (.ok ()) (.ok ())).1.last_sync =
      (100 : Int) ∧
    (syncPositions c2_rs 100 (.error "broker down") (.ok ())
        (.ok ())).1.sync_interval = c2_rs.sync_interval ∧
    ∀ (now2 : Int) (bp2 : Except String (List (String × PosData)))
        (sr2 cr2 : Except String Unit),
      now2 - 100 < c2_rs.sync_interval →
      syncPositions (syncPositions c2_rs 100 (.error "broker down") (.ok ())
          (.ok ())).1 now2 bp2 sr2 cr2 =
        ((syncPositions c2_rs 100 (.error "broker down") (.ok ()) (.ok ())).1,
          false, [])) :=
  ⟨by decide,
    c9_failed_sync_rate_limited c2_rs 100 (.error "broker down") (.ok ())
      (.ok ()) (by decide)⟩

/-! ### Claim C4: broker_order_id/status invariant -/

/-- The mapped status is always SUBMITTED or later: the mapping never
produces PENDING or RETRY_PENDING. -/
theorem mapBrokerStatus_reached (bs : BrokerStatus) :
    reachedSubmitted (mapBrokerStatus bs) = true := by
  unfold mapBrokerStatus
  dsimp only
  split_ifs <;> rfl

/-- Side condition of the amended claim C4 on submissions: submit_order is
not called for an order_id whose pending record has already reached
SUBMITTED or later. -/
def goodSubmit (s : TrackerState) (signal : Signal) : Prop :=
  ∀ oid, signal.order_id = some oid →
    ∀ rec, dictLookup s.pending oid = some rec →
      rec.status = .PENDING ∨ rec.status = .RETRY_PENDING

/-- Tracker states reachable from a fresh tracker by submit_order calls
whose backend status updates succeed and that respect goodSubmit, and by
arbitrary poll_execution_status calls. -/
inductive ReachableC4 : TrackerState → Prop where
  | init : ReachableC4 initTracker
  | submit (s : TrackerState) (signal : Signal) (now : Int)
      (brokerResult : Except String (Option String)) :
      ReachableC4 s → goodSubmit s signal →
      ReachableC4 (submitOrder s signal now brokerResult (.ok ()) (.ok ())).1
  | poll (s : TrackerState)
      (be : Except String (List (String × BrokerStatus))) (now : Int) :
      ReachableC4 s → ReachableC4 (pollExecutionStatus s be now).1

/-- The inductive invariant behind claim C4: (1) the claimed
broker_order_id/status correspondence; (2) a reverse-index entry always
agrees with the broker_order_id of the pending record it points to;
(3) reverse-index entries point to live pending records; (4) the empty
string is never a reverse-index key. -/
def InvC4 (s : TrackerState) : Prop :=
  (∀ oid rec, dictLookup s.pending oid = some rec →
    (rec.broker_order_id ≠ none ↔ reachedSubmitted rec.status = true)) ∧
  (∀ bid oid, dictLookup s.brokerToOrder bid = some oid →
    ∀ rec, dictLookup s.pending oid = some rec →
      rec.broker_order_id = some bid) ∧
  (∀ bid oid, dictLookup s.brokerToOrder bid = some oid →
    (dictLookup s.pending oid).isSome = true) ∧
  dictLookup s.brokerToOrder "" = none

/-- The invariant holds at a fresh tracker. -/
theorem invC4_init : InvC4 initTracker := by
  refine ⟨?_, ?_, ?_, rfl⟩ <;> intro a b h <;> simp [initTracker, dictLookup] at h

/-- Under the invariant, no reverse-index entry can point to an order whose
pending record has not reached SUBMITTED (or is absent): such a record has
no broker_order_id while the entry would force one. -/
theorem noMapEntryToUnsubmitted (s : TrackerState) (hinv : InvC4 s)
    (oid : String)
    (hgood : ∀ rec, dictLookup s.pending oid = some rec →
      rec.status = .PENDING ∨ rec.status = .RETRY_PENDING) :
    ∀ bid, dictLookup s.brokerToOrder bid ≠ some oid := by
  obtain ⟨h1, h2, h3, h4⟩ := hinv
  intro bid hbid
  have hsome := h3 bid oid hbid
  rcases hrec : dictLookup s.pending oid with _ | rec
  · rw [hrec] at hsome
    cases hsome
  · have hb := h2 bid oid hbid rec hrec
    have hiff := h1 oid rec hrec
    have hfalse : reachedSubmitted rec.status = false := by
      rcases hgood rec hrec with h | h <;> rw [h] <;> rfl
    rw [hfalse] at hiff
    have : rec.broker_order_id ≠ none := by
      rw [hb]
      exact fun h => by cases h
    have := hiff.mp this
    cases this

/-- Preservation of the invariant when a record without broker_order_id and
below SUBMITTED is stored for an order no reverse-index entry targets. -/
theorem invC4_insert_fail (s : TrackerState) (oid : String)
    (recF : ExecutionRecord) (hinv : InvC4 s)
    (hnomap : ∀ bid, dictLookup s.brokerToOrder bid ≠ some oid)
    (hbo : recF.broker_order_id = none)
    (hst : reachedSubmitted recF.status = false) :
    InvC4 { s with pending := dictInsert s.pending oid recF } := by
  obtain ⟨h1, h2, h3, h4⟩ := hinv
  refine ⟨?_, ?_, ?_, h4⟩
  · intro oid2 rec2 hrec2
    rw [dictLookup_insert] at hrec2
    by_cases ho : oid = oid2
    · rw [if_pos ho] at hrec2
      injection hrec2 with h
      subst h
      simp [hbo, hst]
    · rw [if_neg ho] at hrec2
      exact h1 _ _ hrec2
  · intro bid oid2 hbid rec2 hrec2
    rw [dictLookup_insert] at hrec2
    by_cases ho : oid = oid2
    · subst ho
      exact absurd hbid (hnomap bid)
    · rw [if_neg ho] at hrec2
      exact h2 bid oid2 hbid rec2 hrec2
  · intro bid oid2 hbid
    rw [dictLookup_insert]
    by_cases ho : oid = oid2
    · simp [ho]
    · rw [if_neg ho]
      exact h3 bid oid2 hbid
/-- Preservation of the invariant by a successful submission: a SUBMITTED
record carrying a fresh non-empty broker_order_id enters both tables. -/
theorem invC4_insert_success (s : TrackerState) (oid bid : String)
    (recS : ExecutionRecord) (hinv : InvC4 s)
    (hnomap : ∀ b, dictLookup s.brokerToOrder b ≠ some oid)
    (hbo : recS.broker_order_id = some bid) (hbne : bid ≠ "")
    (hst : reachedSubmitted recS.status = true) :
    InvC4 { pending := dictInsert s.pending oid recS,
            brokerToOrder := dictInsert s.brokerToOrder bid oid } := by
  obtain ⟨h1, h2, h3, h4⟩ := hinv
  refine ⟨?_, ?_, ?_, ?_⟩
  · intro oid2 rec2 hrec2
    rw [dictLookup_insert] at hrec2
    by_cases ho : oid = oid2
    · rw [if_pos ho] at hrec2
      injection hrec2 with h
      subst h
      simp [hbo, hst]
    · rw [if_neg ho] at hrec2
      exact h1 _ _ hrec2
  · intro b2 oid2 hb2 rec2 hrec2
    rw [dictLookup_insert] at hb2
    rw [dictLookup_insert] at hrec2
    by_cases hb : bid = b2
    · rw [if_pos hb] at hb2
      injection hb2 with h
      subst h
      rw [if_pos rfl] at hrec2
      injection hrec2 with h
      subst h
      rw [hbo, hb]
    · rw [if_neg hb] at hb2
      by_cases ho : oid = oid2
      · subst ho
        exact absurd hb2 (hnomap b2)
      · rw [if_neg ho] at hrec2
        exact h2 b2 oid2 hb2 rec2 hrec2
  · intro b2 oid2 hb2
    rw [dictLookup_insert] at hb2
    rw [dictLookup_insert]
    by_cases hb : bid = b2
    · rw [if_pos hb] at hb2
      injection hb2 with h
      subst h
      simp
    · rw [if_neg hb] at hb2
      by_cases ho : oid = oid2
      · simp [ho]
      · rw [if_neg ho]
        exact h3 b2 oid2 hb2
  · rw [dictLookup_insert]
    rw [if_neg hbne]
    exact h4

/-- Preservation of the invariant when a matched record is rewritten in
place by the poll loop: its broker_order_id is unchanged and its new status
has reached SUBMITTED. -/
theorem invC4_update_matched (s : TrackerState) (oid bid : String)
    (rec rec2 : ExecutionRecord) (hinv : InvC4 s)
    (hold : dictLookup s.pending oid = some rec)
    (holdbid : rec.broker_order_id = some bid)
    (hbo : rec2.broker_order_id = some bid)
    (hst : reachedSubmitted rec2.status = true) :
    InvC4 { s with pending := dictInsert s.pending oid rec2 } := by
  obtain ⟨h1, h2, h3, h4⟩ := hinv
  refine ⟨?_, ?_, ?_, h4⟩
  · intro oid2 r hr
    rw [dictLookup_insert] at hr
    by_cases ho : oid = oid2
    · rw [if_pos ho] at hr
      injection hr with h
      subst h
      simp [hbo, hst]
    · rw [if_neg ho] at hr
      exact h1 _ _ hr
  · intro b2 oid2 hb2 r hr
    rw [dictLookup_insert] at hr
    by_cases ho : oid = oid2
    · subst ho
      rw [if_pos rfl] at hr
      injection hr with h
      subst h
      have hx := h2 b2 oid hb2 rec hold
      rw [holdbid] at hx
      injection hx with hx2
      rw [hbo, hx2]
    · rw [if_neg ho] at hr
      exact h2 b2 oid2 hb2 r hr
  · intro b2 oid2 hb2
    rw [dictLookup_insert]
    by_cases ho : oid = oid2
    · simp [ho]
    · rw [if_neg ho]
      exact h3 b2 oid2 hb2

/-- Preservation of the invariant by _complete_execution of a record whose
broker_order_id is a non-empty string. -/
theorem invC4_complete (s2 : TrackerState) (oid bid : String)
    (rec2 : ExecutionRecord) (hinv2 : InvC4 s2)
    (hlook : dictLookup s2.pending oid = some rec2)
    (hbo : rec2.broker_order_id = some bid) (hbne : bid ≠ "") :
    InvC4 (completeExecution s2 oid) := by
  obtain ⟨h1, h2, h3, h4⟩ := hinv2
  have hres : completeExecution s2 oid =
      { pending := dictRemove s2.pending oid,
        brokerToOrder := dictRemove s2.brokerToOrder bid } := by
    simp [completeExecution, hlook, hbo, hbne]
  rw [hres]
  refine ⟨?_, ?_, ?_, ?_⟩
  · intro oid2 r hr
    rw [dictLookup_remove] at hr
    by_cases ho : oid2 = oid
    · rw [if_pos ho] at hr
      cases hr
    · rw [if_neg ho] at hr
      exact h1 _ _ hr
  · intro b2 oid2 hb2 r hr
    rw [dictLookup_remove] at hb2
    rw [dictLookup_remove] at hr
    by_cases hbb : b2 = bid
    · rw [if_pos hbb] at hb2
      cases hb2
    · rw [if_neg hbb] at hb2
      by_cases ho : oid2 = oid
      · rw [if_pos ho] at hr
        cases hr
      · rw [if_neg ho] at hr
        exact h2 _ _ hb2 _ hr
  · intro b2 oid2 hb2
    rw [dictLookup_remove] at hb2
    rw [dictLookup_remove]
    by_cases hbb : b2 = bid
    · rw [if_pos hbb] at hb2
      cases hb2
    · rw [if_neg hbb] at hb2
      by_cases ho : oid2 = oid
      · subst ho
        have hx := h2 b2 oid2 hb2 rec2 hlook
        rw [hbo] at hx
        injection hx with hx2
        exact absurd hx2.symm hbb
      · rw [if_neg ho]
        exact h3 _ _ hb2
  · rw [dictLookup_remove]
    by_cases hbb : ("" : String) = bid
    · rw [if_pos hbb]
    · rw [if_neg hbb]
      exact h4

/-- Preservation of the invariant by one iteration of the poll loop. -/
theorem invC4_pollStep (s : TrackerState) (now : Int) (bid : String)
    (bs : BrokerStatus) (hinv : InvC4 s) :
    InvC4 (pollStep s now bid bs).1 := by
  rcases hm : dictLookup s.brokerToOrder bid with _ | oid
  · simpa [pollStep, hm] using hinv
  · rcases hp : dictLookup s.pending oid with _ | rec
    · simpa [pollStep, hm, hp] using hinv
    · have hrecbid : rec.broker_order_id = some bid :=
        hinv.2.1 bid oid hm rec hp
      have hbne : bid ≠ "" := by
        intro h
        subst h
        rw [hinv.2.2.2] at hm
        cases hm
      have hupd : (pollRecUpdate rec bs now).broker_order_id = some bid :=
        hrecbid
      have hst : reachedSubmitted (pollRecUpdate rec bs now).status = true :=
        mapBrokerStatus_reached bs
      have hinv2 : InvC4
          { s with pending := dictInsert s.pending oid (pollRecUpdate rec bs now) } :=
        invC4_update_matched s oid bid rec (pollRecUpdate rec bs now) hinv hp
          hrecbid hupd hst
      rw [pollStep_matched s now bid oid bs rec hm hp]
      by_cases hterm : isTerminal (mapBrokerStatus bs) = true
      · rw [if_pos hterm]
        exact invC4_complete _ oid bid (pollRecUpdate rec bs now) hinv2
          (by simp [dictLookup_insert]) hupd hbne
      · rw [if_neg hterm]
        exact hinv2

/-- Preservation of the invariant by the whole poll loop. -/
theorem invC4_pollList (now : Int) :
    ∀ (l : List (String × BrokerStatus)) (s : TrackerState), InvC4 s →
      InvC4 (pollList s now l).1 := by
  intro l
  induction l with
  | nil =>
    intro s h
    simpa [pollList] using h
  | cons p rest ih =>
    intro s h
    obtain ⟨bid, bs⟩ := p
    simp only [pollList]
    exact ih _ (invC4_pollStep s now bid bs h)

/-- Preservation of the invariant by poll_execution_status. -/
theorem invC4_poll (s : TrackerState)
    (be : Except String (List (String × BrokerStatus))) (now : Int)
    (hinv : InvC4 s) :
    InvC4 (pollExecutionStatus s be now).1 := by
  rcases be with e | l
  · simpa [pollExecutionStatus] using hinv
  · simpa [pollExecutionStatus] using invC4_pollList now l s hinv

/-- The state left by a failed submission, for any backend outcomes. -/
theorem submitOrder_error_state (s : TrackerState) (signal : Signal)
    (oid : String) (now : Int) (e : String) (aS aR : Except String Unit)
    (hsig : signal.order_id = some oid) (hoe : oid ≠ "") :
    (submitOrder s signal now (.error e) aS aR).1 =
      { s with pending :=
                  dictInsert s.pending oid
                    ({ order_id := oid, symbol := signal.symbol.getD "",
                       action := signal.action.getD "",
                       size := signal.size.getD 0,
                       target_price := signal.price, status := .RETRY_PENDING,
                       created_at := now, updated_at := now, retry_count := 1,
                       last_error := some e }) } := by
  cases aR <;> simp [submitOrder, hsig, hoe, submitFail]

/-- The state left by a successful submission with succeeding backend
update. -/
theorem submitOrder_success_state (s : TrackerState) (signal : Signal)
    (oid bid : String) (now : Int) (aR : Except String Unit)
    (hsig : signal.order_id = some oid) (hoe : oid ≠ "") (hbe : bid ≠ "") :
    (submitOrder s signal now (.ok (some bid)) (.ok ()) aR).1 =
      { pending := dictInsert s.pending oid
          ({ order_id := oid, symbol := signal.symbol.getD "",
             action := signal.action.getD "", size := signal.size.getD 0,
             target_price := signal.price, status := .SUBMITTED,
             broker_order_id := some bid,
             created_at := now, updated_at := now }),
        brokerToOrder := dictInsert s.brokerToOrder bid oid } := by
  simp [submitOrder, hsig, hoe, hbe]

/-- Preservation of the invariant by submit_order under goodSubmit and
succeeding backend updates. -/
theorem invC4_submit (s : TrackerState) (signal : Signal) (now : Int)
    (brokerResult : Except String (Option String))
    (hinv : InvC4 s) (hgood : goodSubmit s signal) :
    InvC4 (submitOrder s signal now brokerResult (.ok ()) (.ok ())).1 := by
  rcases hsig : signal.order_id with _ | oid
  · simpa [submitOrder, hsig] using hinv
  · by_cases hoe : oid = ""
    · subst hoe
      simpa [submitOrder, hsig] using hinv
    · have hnomap : ∀ bid, dictLookup s.brokerToOrder bid ≠ some oid :=
        noMapEntryToUnsubmitted s hinv oid (hgood oid hsig)
      rcases brokerResult with e | bidOpt
      · rw [submitOrder_error_state s signal oid now e _ _ hsig hoe]
        refine invC4_insert_fail s oid _ hinv hnomap ?_ ?_ <;> rfl
      · rcases bidOpt with _ | bid
        · simpa [submitOrder, hsig, hoe] using hinv
        · by_cases hbe : bid = ""
          · subst hbe
            simpa [submitOrder, hsig, hoe] using hinv
          · rw [submitOrder_success_state s signal oid bid now _ hsig hoe hbe]
            refine invC4_insert_success s oid bid _ hinv hnomap ?_ hbe ?_ <;> rfl

/-- The invariant holds at every reachable state. -/
theorem invC4_reachable (s : TrackerState) (h : ReachableC4 s) : InvC4 s := by
  induction h with
  | init => exact invC4_init
  | submit s2 sig now br _ hg ih => exact invC4_submit s2 sig now br ih hg
  | poll s2 be now _ ih => exact invC4_poll s2 be now ih

/-- A state after a single submit_order call in which the broker accepted
the order but the backend status update raised. -/
def c4_bad_state : TrackerState :=
  (submitOrder initTracker wSignal 0 (.ok (some "B1")) (.error "api down")
    (.ok ())).1

/-- Claim C4 counterexample: a single submit_order call in which the broker
accepts the order and the backend status update then raises leaves a
pending record with status RETRY_PENDING and broker_order_id set — the
claim requires broker_order_id to be absent whenever the status is
RETRY_PENDING. -/
theorem c4_counterexample :
    (dictLookup c4_bad_state.pending "X").map
        (fun rec => (rec.status, rec.broker_order_id)) =
      some (.RETRY_PENDING, some "B1") := by
  decide

/-- Claim C4 (amended): after any sequence of submit_order and
poll_execution_status operations in which the backend status updates made
by submit_order succeed and submit_order is never called for an order_id
whose pending record has already reached SUBMITTED or later, every record
in the pending table has broker_order_id set if and only if its status has
reached SUBMITTED or later (and hence absent when PENDING or
RETRY_PENDING). -/
theorem c4_broker_id_iff_submitted (s : TrackerState) (h : ReachableC4 s) :
    ∀ oid rec, dictLookup s.pending oid = some rec →
      (rec.broker_order_id ≠ none ↔ reachedSubmitted rec.status = true) :=
  (invC4_reachable s h).1

/-- A reachable state holding one successfully submitted order. -/
def c4_good_state : TrackerState :=
  (submitOrder initTracker wSignal 0 (.ok (some "B1")) (.ok ()) (.ok ())).1

/-- The C4 witness state is reachable. -/
theorem c4_good_state_reachable : ReachableC4 c4_good_state := by
  unfold c4_good_state
  exact ReachableC4.submit initTracker wSignal 0 (.ok (some "B1"))
    ReachableC4.init
    (by
      intro oid h rec hrec
      simp [initTracker, dictLookup] at hrec)

/-- Witness for c4_broker_id_iff_submitted at a concrete reachable state. -/
theorem c4_broker_id_iff_submitted_witness :
    ReachableC4 c4_good_state ∧
    ∀ oid rec, dictLookup c4_good_state.pending oid = some rec →
      (rec.broker_order_id ≠ none ↔ reachedSubmitted rec.status = true) :=
  ⟨c4_good_state_reachable,
    c4_broker_id_iff_submitted c4_good_state c4_good_state_reachable⟩


/-! ### Claim C5: fill-size bound invariant -/

/-- The fill-size bound over a pending table. -/
def sizeBound (l : List (String × ExecutionRecord)) : Prop :=
  ∀ oid rec, dictLookup l oid = some rec → rec.filled_size ≤ rec.size

/-- The fill-size bound as a tracker-state invariant. -/
def InvC5 (s : TrackerState) : Prop := sizeBound s.pending

/-- Inserting a record that satisfies the bound preserves sizeBound. -/
theorem sizeBound_insert (l : List (String × ExecutionRecord)) (oid : String)
    (rec : ExecutionRecord) (h : sizeBound l)
    (hb : rec.filled_size ≤ rec.size) :
    sizeBound (dictInsert l oid rec) := by
  intro oid2 r hr
  rw [dictLookup_insert] at hr
  by_cases ho : oid = oid2
  · rw [if_pos ho] at hr
    injection hr with hh
    subst hh
    exact hb
  · rw [if_neg ho] at hr
    exact h _ _ hr

/-- Removing a record preserves sizeBound. -/
theorem sizeBound_remove (l : List (String × ExecutionRecord)) (oid : String)
    (h : sizeBound l) : sizeBound (dictRemove l oid) := by
  intro oid2 r hr
  rw [dictLookup_remove] at hr
  by_cases ho : oid2 = oid
  · rw [if_pos ho] at hr
    cases hr
  · rw [if_neg ho] at hr
    exact h _ _ hr

/-- The state left by the failure branch, for any backend outcome. -/
theorem submitFail_state (s : TrackerState) (oid : String)
    (exec : ExecutionRecord) (e : String) (now : Int)
    (aR : Except String Unit) :
    (submitFail s oid exec e now aR).1 =
      { s with pending :=
                  dictInsert s.pending oid
                    ({ exec with
                       status := .RETRY_PENDING,
                       retry_count := exec.retry_count + 1,
                       last_error := some e, updated_at := now }) } := by
  cases aR <;> rfl

/-- The failure branch preserves the fill-size bound when its record
satisfies it. -/
theorem invC5_submitFail (s : TrackerState) (oid : String)
    (exec : ExecutionRecord) (e : String) (now : Int)
    (aR : Except String Unit) (h : InvC5 s)
    (hb : exec.filled_size ≤ exec.size) :
    InvC5 (submitFail s oid exec e now aR).1 := by
  rw [submitFail_state]
  refine sizeBound_insert _ _ _ h ?_
  exact hb

/-- The record stored on a successful broker placement. -/
def submittedRecord (signal : Signal) (oid bid : String) (now : Int) :
    ExecutionRecord :=
  { order_id := oid, symbol := signal.symbol.getD "",
    action := signal.action.getD "", size := signal.size.getD 0,
    target_price := signal.price, status := .SUBMITTED,
    broker_order_id := some bid, created_at := now, updated_at := now }

/-- When the broker accepts the order but the first backend update raises,
submit_order falls into the failure branch on top of the already-updated
tables. -/
theorem submitOrder_success_apiFail (s : TrackerState) (signal : Signal)
    (oid bid : String) (now : Int) (eS : String) (aR : Except String Unit)
    (hsig : signal.order_id = some oid) (hoe : oid ≠ "") (hbe : bid ≠ "") :
    (submitOrder s signal now (.ok (some bid)) (.error eS) aR).1 =
      (submitFail
        { pending :=
            dictInsert s.pending oid (submittedRecord signal oid bid now)
          brokerToOrder := dictInsert s.brokerToOrder bid oid }
        oid (submittedRecord signal oid bid now) eS now aR).1 := by
  cases aR <;> simp [submitOrder, hsig, hoe, hbe, submitFail, submittedRecord]

/-- Case analysis on the state left by _complete_execution. -/
theorem completeExecution_cases (s : TrackerState) (oid : String) :
    completeExecution s oid = s ∨
    ∃ rec, dictLookup s.pending oid = some rec ∧
      (completeExecution s oid =
          { s with pending := dictRemove s.pending oid } ∨
       ∃ b, rec.broker_order_id = some b ∧ b ≠ "" ∧
         completeExecution s oid =
           { pending := dictRemove s.pending oid,
             brokerToOrder := dictRemove s.brokerToOrder b }) := by
  unfold completeExecution
  rcases hl : dictLookup s.pending oid with _ | rec
  · exact Or.inl rfl
  · right
    dsimp only
    refine ⟨rec, rfl, ?_⟩
    rcases hbo : rec.broker_order_id with _ | b
    · exact Or.inl rfl
    · by_cases hbe : b = ""
      · subst hbe
        exact Or.inl rfl
      · right
        refine ⟨b, rfl, hbe, ?_⟩
        dsimp only
        rw [if_neg hbe]

/-- Side condition of the amended claim C5 on polls: the broker never
reports a filled_size larger than the size of the tracked record the
report is matched against. -/
def goodPoll (s : TrackerState) (execs : List (String × BrokerStatus)) :
    Prop :=
  ∀ bid bs, (bid, bs) ∈ execs → ∀ oid rec,
    dictLookup s.brokerToOrder bid = some oid →
    dictLookup s.pending oid = some rec →
    bs.filled_size.getD 0 ≤ rec.size

/-- Tracker states reachable from a fresh tracker by submit_order calls
whose signals carry a non-negative size (with arbitrary broker and backend
outcomes) and poll_execution_status calls satisfying goodPoll. -/
inductive ReachableC5 : TrackerState → Prop where
  | init : ReachableC5 initTracker
  | submit (s : TrackerState) (signal : Signal) (now : Int)
      (brokerResult : Except String (Option String))
      (apiSubmitResult apiRetryResult : Except String Unit) :
      ReachableC5 s →
      (∀ n, signal.size = some n → 0 ≤ n) →
      ReachableC5 (submitOrder s signal now brokerResult apiSubmitResult
        apiRetryResult).1
  | pollErr (s : TrackerState) (e : String) (now : Int) :
      ReachableC5 s → ReachableC5 (pollExecutionStatus s (.error e) now).1
  | poll (s : TrackerState) (execs : List (String × BrokerStatus))
      (now : Int) :
      ReachableC5 s → goodPoll s execs →
      ReachableC5 (pollExecutionStatus s (.ok execs) now).1

/-- Preservation of the fill-size bound by submit_order for signals with
non-negative size, whatever the broker and backend outcomes. -/
theorem invC5_submit (s : TrackerState) (signal : Signal) (now : Int)
    (brokerResult : Except String (Option String))
    (aS aR : Except String Unit) (hinv : InvC5 s)
    (hsz : ∀ n, signal.size = some n → 0 ≤ n) :
    InvC5 (submitOrder s signal now brokerResult aS aR).1 := by
  have hsz0 : (0 : Int) ≤ signal.size.getD 0 := by
    rcases h : signal.size with _ | n
    · simp
    · simpa using hsz n h
  rcases hsig : signal.order_id with _ | oid
  · simpa [submitOrder, hsig] using hinv
  · by_cases hoe : oid = ""
    · subst hoe
      simpa [submitOrder, hsig] using hinv
    · rcases brokerResult with e | bidOpt
      · rw [submitOrder_error_state s signal oid now e aS aR hsig hoe]
        refine sizeBound_insert _ _ _ hinv ?_
        exact hsz0
      · rcases bidOpt with _ | bid
        · simpa [submitOrder, hsig, hoe] using hinv
        · by_cases hbe : bid = ""
          · subst hbe
            simpa [submitOrder, hsig, hoe] using hinv
          · rcases aS with eS | u
            · rw [submitOrder_success_apiFail s signal oid bid now eS aR
                hsig hoe hbe]
              refine invC5_submitFail _ oid _ eS now aR ?_ ?_
              · refine sizeBound_insert _ _ _ hinv ?_
                exact hsz0
              · exact hsz0
            · cases u
              rw [submitOrder_success_state s signal oid bid now aR hsig hoe
                hbe]
              refine sizeBound_insert _ _ _ hinv ?_
              exact hsz0

/-- The pending table and reverse index of a state reached from s0 during
one poll loop: reverse-index entries come from s0 and pending records keep
the size they had in s0. -/
def pollSub (s0 s : TrackerState) : Prop :=
  (∀ bid oid, dictLookup s.brokerToOrder bid = some oid →
    dictLookup s0.brokerToOrder bid = some oid) ∧
  (∀ oid rec, dictLookup s.pending oid = some rec →
    ∃ rec0, dictLookup s0.pending oid = some rec0 ∧ rec.size = rec0.size)

/-- pollSub is reflexive. -/
theorem pollSub_refl (s : TrackerState) : pollSub s s :=
  ⟨fun _ _ h => h, fun _ rec h => ⟨rec, h, rfl⟩⟩

/-- _complete_execution only removes entries, so it preserves pollSub. -/
theorem pollSub_complete (s0 s : TrackerState) (oid : String)
    (h : pollSub s0 s) : pollSub s0 (completeExecution s oid) := by
  obtain ⟨hm, hpend⟩ := h
  have hremp : ∀ oid2 r,
      dictLookup (dictRemove s.pending oid) oid2 = some r →
      ∃ rec0, dictLookup s0.pending oid2 = some rec0 ∧
        r.size = rec0.size := by
    intro oid2 r hr
    rw [dictLookup_remove] at hr
    by_cases ho : oid2 = oid
    · rw [if_pos ho] at hr
      cases hr
    · rw [if_neg ho] at hr
      exact hpend _ _ hr
  rcases completeExecution_cases s oid with he | ⟨rec, hl, he | ⟨b, hbo, hbe, he⟩⟩
  · rw [he]
    exact ⟨hm, hpend⟩
  · rw [he]
    exact ⟨hm, hremp⟩
  · rw [he]
    refine ⟨?_, hremp⟩
    intro b2 oid2 hb2
    rw [dictLookup_remove] at hb2
    by_cases hbb : b2 = b
    · rw [if_pos hbb] at hb2
      cases hb2
    · rw [if_neg hbb] at hb2
      exact hm _ _ hb2

/-- One poll iteration preserves pollSub. -/
theorem pollSub_step (s0 s : TrackerState) (now : Int) (bid : String)
    (bs : BrokerStatus) (h : pollSub s0 s) :
    pollSub s0 (pollStep s now bid bs).1 := by
  rcases hm : dictLookup s.brokerToOrder bid with _ | oid
  · simpa [pollStep, hm] using h
  · rcases hp : dictLookup s.pending oid with _ | rec
    · simpa [pollStep, hm, hp] using h
    · have hins : pollSub s0
          { s with pending :=
              dictInsert s.pending oid (pollRecUpdate rec bs now) } := by
        obtain ⟨hm2, hpend⟩ := h
        refine ⟨hm2, ?_⟩
        intro oid2 r hr
        rw [dictLookup_insert] at hr
        by_cases ho : oid = oid2
        · rw [if_pos ho] at hr
          injection hr with hh
          subst hh
          subst ho
          exact hpend oid rec hp
        · rw [if_neg ho] at hr
          exact hpend _ _ hr
      rw [pollStep_matched s now bid oid bs rec hm hp]
      by_cases hterm : isTerminal (mapBrokerStatus bs) = true
      · rw [if_pos hterm]
        exact pollSub_complete s0 _ oid hins
      · rw [if_neg hterm]
        exact hins

/-- The fill-size bound is preserved by _complete_execution. -/
theorem invC5_complete (s : TrackerState) (oid : String) (h : InvC5 s) :
    InvC5 (completeExecution s oid) := by
  rcases completeExecution_cases s oid with he | ⟨rec, hl, he | ⟨b, hbo, hbe, he⟩⟩
  · rw [he]
    exact h
  · rw [he]
    exact sizeBound_remove _ _ h
  · rw [he]
    exact sizeBound_remove _ _ h

/-- One poll iteration preserves the fill-size bound when the broker's
reported filled_size respects the matched record's size as it was at the
start of the poll. -/
theorem invC5_pollStep (s0 s : TrackerState) (now : Int) (bid : String)
    (bs : BrokerStatus) (hinv : InvC5 s) (hsub : pollSub s0 s)
    (hcond : ∀ oid rec, dictLookup s0.brokerToOrder bid = some oid →
      dictLookup s0.pending oid = some rec →
      bs.filled_size.getD 0 ≤ rec.size) :
    InvC5 (pollStep s now bid bs).1 := by
  rcases hm : dictLookup s.brokerToOrder bid with _ | oid
  · simpa [pollStep, hm] using hinv
  · rcases hp : dictLookup s.pending oid with _ | rec
    · simpa [pollStep, hm, hp] using hinv
    · have hm0 := hsub.1 bid oid hm
      obtain ⟨rec0, hp0, hsz⟩ := hsub.2 oid rec hp
      have hb : (pollRecUpdate rec bs now).filled_size ≤
          (pollRecUpdate rec bs now).size := by
        show bs.filled_size.getD 0 ≤ rec.size
        rw [hsz]
        exact hcond oid rec0 hm0 hp0
      have hinv2 : InvC5
          { s with pending :=
              dictInsert s.pending oid (pollRecUpdate rec bs now) } :=
        sizeBound_insert _ _ _ hinv hb
      rw [pollStep_matched s now bid oid bs rec hm hp]
      by_cases hterm : isTerminal (mapBrokerStatus bs) = true
      · rw [if_pos hterm]
        exact invC5_complete _ oid hinv2
      · rw [if_neg hterm]
        exact hinv2

/-- The whole poll loop preserves the fill-size bound under goodPoll. -/
theorem invC5_pollList (s0 : TrackerState) (now : Int) :
    ∀ (l : List (String × BrokerStatus)) (s : TrackerState),
      InvC5 s → pollSub s0 s → goodPoll s0 l →
      InvC5 (pollList s now l).1 := by
  intro l
  induction l with
  | nil =>
    intro s h _ _
    simpa [pollList] using h
  | cons p rest ih =>
    intro s h hsub hgood
    obtain ⟨bid, bs⟩ := p
    simp only [pollList]
    apply ih
    · exact invC5_pollStep s0 s now bid bs h hsub
        (fun oid rec hm hp =>
          hgood bid bs (List.mem_cons_self _ _) oid rec hm hp)
    · exact pollSub_step s0 s now bid bs hsub
    · intro b2 bs2 hmem oid rec hm hp
      exact hgood b2 bs2 (List.mem_cons_of_mem _ hmem) oid rec hm hp

/-- The fill-size bound holds at every ReachableC5 state. -/
theorem invC5_reachable (s : TrackerState) (h : ReachableC5 s) : InvC5 s := by
  induction h with
  | init =>
    intro oid rec hr
    simp [initTracker, dictLookup] at hr
  | submit s2 sig now br aS aR _ hsz ih =>
    exact invC5_submit s2 sig now br aS aR ih hsz
  | pollErr s2 e now _ ih =>
    simpa [pollExecutionStatus] using ih
  | poll s2 execs now _ hgood ih =>
    simpa [pollExecutionStatus] using
      invC5_pollList s2 now execs s2 ih (pollSub_refl s2) hgood

/-- State with one successfully submitted order of size 100, shared by the
C5 scenarios. -/
def c5_submit_state : TrackerState :=
  (submitOrder initTracker wSignal 0 (.ok (some "B1")) (.ok ()) (.ok ())).1

/-- The record held by c5_submit_state. -/
def c5_rec : ExecutionRecord :=
  { order_id := "X", symbol := "000001", action := "buy", size := 100,
    target_price := some 10, status := .SUBMITTED,
    broker_order_id := some "B1", created_at := 0, updated_at := 0 }

/-- State after the broker reports a partial fill of 150 on an order of
size 100. -/
def c5_bad_state : TrackerState :=
  (pollExecutionStatus c5_submit_state
    (.ok [("B1", { status := some "partial", filled_size := some 150,
                   avg_price := some 10 })]) 1).1

/-- Claim C5 counterexample: submit an order of size 100, then poll while
the broker reports filled_size 150 with a partial status; the record stays
in the pending table with filled_size 150 > size 100 — the code copies the
broker value without any clamping or check. -/
theorem c5_counterexample :
    (dictLookup c5_bad_state.pending "X").map
        (fun rec => (rec.filled_size, rec.size)) = some (150, 100) ∧
    ¬((150 : Int) ≤ 100) := by
  decide

/-- Claim C5 (amended): after any sequence of submit_order calls whose
signals carry a non-negative size and poll_execution_status calls in which
the broker never reports a filled_size exceeding the size of the record the
report is matched against, every record in the pending table satisfies
filled_size ≤ size; the code itself does not enforce the bound, so an
arbitrary broker-reported filled_size can violate it. -/
theorem c5_fill_size_bound (s : TrackerState) (h : ReachableC5 s) :
    ∀ oid rec, dictLookup s.pending oid = some rec →
      rec.filled_size ≤ rec.size :=
  invC5_reachable s h

/-- A ReachableC5 state: submit size 100 then poll a partial fill of 50. -/
def c5_good_state : TrackerState :=
  (pollExecutionStatus c5_submit_state
    (.ok [("B1", { status := some "partial", filled_size := some 50,
                   avg_price := some 10 })]) 1).1

/-- c5_submit_state is reachable. -/
theorem c5_submit_state_reachable : ReachableC5 c5_submit_state := by
  unfold c5_submit_state
  exact ReachableC5.submit initTracker wSignal 0 (.ok (some "B1")) (.ok ())
    (.ok ()) ReachableC5.init
    (by
      intro n hn
      simp [wSignal] at hn
      omega)

/-- c5_good_state is reachable: the reported fill of 50 respects the
matched record's size of 100. -/
theorem c5_good_state_reachable : ReachableC5 c5_good_state := by
  unfold c5_good_state
  apply ReachableC5.poll c5_submit_state _ 1 c5_submit_state_reachable
  intro bid bs hmem oid rec hm hp
  simp only [List.mem_singleton] at hmem
  injection hmem with h1 h2
  subst h1
  subst h2
  have e1 : dictLookup c5_submit_state.brokerToOrder "B1" = some "X" := by
    decide
  have e2 : dictLookup c5_submit_state.pending "X" = some c5_rec := by
    decide
  rw [e1] at hm
  injection hm with hm2
  subst hm2
  rw [e2] at hp
  injection hp with hp2
  subst hp2
  decide

/-- Witness for c5_fill_size_bound at a concrete reachable state. -/
theorem c5_fill_size_bound_witness :
    ReachableC5 c5_good_state ∧
    ∀ oid rec, dictLookup c5_good_state.pending oid = some rec →
      rec.filled_size ≤ rec.size :=
  ⟨c5_good_state_reachable,
    c5_fill_size_bound c5_good_state c5_good_state_reachable⟩
